import Mathlib

/-!
Verification of the demo-pilot orchestration engine.

This file shallowly embeds the core of the repository:
  * `backend/agents/voice_engine.py` — `VoiceEngine.text_to_speech`,
    `VoiceEngine.narrate_and_wait`, `AudioSynchronizer.sync_narrate_and_act`,
    `AudioSynchronizer._execute_browser_actions`;
  * `backend/agents/demo_copilot.py` — the LangGraph nodes
    (`_execute_step`, `_check_for_questions`, `_should_handle_question`,
    `_handle_question`, `_advance_to_next_step`, `_should_continue`,
    `_complete_demo`, `_handle_error`), the session operations
    (`pause_demo`, `resume_demo`, `ask_question`) and
    `_find_step_for_feature`.

External collaborators (the browser controller, the ElevenLabs client, pydub,
the language model) are modelled as oracle parameters: for each call site the
oracle supplies the value the collaborator would have produced, with
`Except.error` standing for a raised exception.  Effects that the Python code
performs but does not return (spoken narrations, per-action success/failure
records, dispatch/sleep ordering) are instrumented as explicit traces so that
theorems can talk about them; each such trace records exactly the calls the
source makes, in source order.  Machine time is rational: the Python floats
`0.05`, `0.8`, `2.0`, `500` are carried exactly as `5/100`, `8/10`, `2`, `500`.
-/

namespace DemoPilot

/-- Audio payloads (`bytes` in Python) are modelled as lists of byte values. -/
abbrev Bytes := List Nat

/-- Collaborator results (`Except` values) can be compared, so concrete
oracle behaviours are decidable. -/
instance exceptDecEq {e a : Type} [DecidableEq e] [DecidableEq a] :
    DecidableEq (Except e a)
  | Except.error x, Except.error y =>
      if h : x = y then isTrue (congrArg Except.error h)
      else isFalse (fun hh => h (by injection hh))
  | Except.error _, Except.ok _ => isFalse (fun hh => Except.noConfusion hh)
  | Except.ok _, Except.error _ => isFalse (fun hh => Except.noConfusion hh)
  | Except.ok x, Except.ok y =>
      if h : x = y then isTrue (congrArg Except.ok h)
      else isFalse (fun hh => h (by injection hh))

/-! ## Word counting (`len(text.split())`)

Python's `str.split()` with no separator splits on runs of whitespace and
ignores leading/trailing whitespace.  The scripts are ASCII, so the blank,
tab, newline and carriage-return characters cover the separators used. -/

/-- Whitespace test used by `str.split()` (ASCII subset). -/
def isSpaceChar (c : Char) : Bool :=
  c = ' ' || c = '\n' || c = '\t' || c = '\r'

/-- Accumulator pass over the characters: `acc` holds the current word
reversed; a whitespace character closes the current word (if any). -/
def wordsAux : List Char → List Char → List (List Char)
  | [], acc => if acc.isEmpty then [] else [acc.reverse]
  | c :: cs, acc =>
      if isSpaceChar c then
        if acc.isEmpty then wordsAux cs [] else acc.reverse :: wordsAux cs []
      else
        wordsAux cs (c :: acc)

/-- Number of whitespace-separated words of a string: `len(text.split())`. -/
def wordCount (s : String) : Nat :=
  (wordsAux s.toList []).length

/-! ## Case-insensitive substring search (`feature.lower() in name.lower()`) -/

/-- Lower-case a string character by character (`str.lower()`; the demo
scripts are ASCII, where `Char.toLower` agrees with Python). -/
def toLowerStr (s : String) : String :=
  String.mk (s.toList.map Char.toLower)

/-- Does `hay` start with `needle`? -/
def startsWithChars : List Char → List Char → Bool
  | [], _ => true
  | _ :: _, [] => false
  | a :: as, b :: bs => a = b && startsWithChars as bs

/-- Contiguous-substring containment, Python's `needle in hay` on strings. -/
def containsChars (needle : List Char) : List Char → Bool
  | [] => needle.isEmpty
  | hay@(_ :: rest) => startsWithChars needle hay || containsChars needle rest

/-- Case-insensitive substring test: `needle.lower() in hay.lower()`. -/
def containsCI (needle hay : String) : Bool :=
  containsChars (toLowerStr needle).toList (toLowerStr hay).toList

/-! ## VoiceEngine (`voice_engine.py`, lines 64–134 and 219–253) -/

/-- Body of the `try` block of `VoiceEngine.text_to_speech`: consult the
in-memory cache, then the disk cache, then call the ElevenLabs generator.
`gen` is the collaborator oracle; `Except.error` models the API call
raising. -/
def text_to_speech_try (memCache diskCache : Option Bytes)
    (gen : Except String Bytes) : Except String Bytes :=
  match memCache with
  | some b => Except.ok b
  | none =>
      match diskCache with
      | some b => Except.ok b
      | none => gen

/-- `VoiceEngine.text_to_speech`.  If the ElevenLabs client was never
initialised (`clientAvailable = false`) the function returns `b""` at once;
otherwise it runs the `try` body and the `except` clause converts any raised
exception into `b""` ("Return empty bytes instead of crashing").  The
function is total: no input makes it raise. -/
def text_to_speech (clientAvailable : Bool) (memCache diskCache : Option Bytes)
    (gen : Except String Bytes) : Bytes :=
  if !clientAvailable then []
  else
    match text_to_speech_try memCache diskCache gen with
    | Except.ok b => b
    | Except.error _ => []

/-- Result dictionary of `VoiceEngine.narrate_and_wait`. -/
structure NarrationResult where
  audio_bytes : Bytes
  duration_ms : ℚ
  text : String
deriving DecidableEq

/-- Estimated narration duration in milliseconds,
`int((word_count / 150) * 60 * 1000)`.  The value is the integer `400·w`
exactly, so Python's `int(...)` truncation is the identity here. -/
def estimated_duration_ms (w : Nat) : ℚ :=
  (w : ℚ) / 150 * 60 * 1000

/-- `VoiceEngine.narrate_and_wait`.  `pydub` is the duration-measurement
oracle (`AudioSegment.from_mp3`): `Except.error` models it raising, in which
case the code falls back to the word-count estimate.  With empty audio the
duration stays `0`. -/
def narrate_and_wait (clientAvailable : Bool) (memCache diskCache : Option Bytes)
    (gen : Except String Bytes) (pydub : Except String ℚ)
    (text : String) : NarrationResult :=
  let audio := text_to_speech clientAvailable memCache diskCache gen
  let duration :=
    if audio.isEmpty then 0
    else
      match pydub with
      | Except.ok d => d
      | Except.error _ => estimated_duration_ms (wordCount text)
  { audio_bytes := audio, duration_ms := duration, text := text }

/-! ## ActionSpec and the action pacer
(`AudioSynchronizer._execute_browser_actions`, lines 403–479) -/

/-- One browser action dictionary of a demo script.  Optional fields model
`dict.get` with its default (`duration`: 1 second for `wait`, 1000 ms for
`highlight`; `direction`: "down"; `pixels`: 500); `delay` models the
`'delay' in action` membership test.  The scripts always supply the keys a
given action type reads, so the `KeyError` path is not modelled. -/
structure ActionSpec where
  type : String
  selector : Option String := none
  text : String := ""
  url : String := ""
  file_path : String := ""
  duration : Option ℚ := none
  delay : Option ℚ := none
  direction : Option String := none
  pixels : Option ℚ := none
deriving DecidableEq

/-- The browser-controller calls the `if/elif` dispatch chain can make. -/
inductive BrowserCall where
  | click (selector : String)
  | typeText (selector text : String)
  | navigate (url : String)
  | upload (selector filePath : String)
  | waitSleep (seconds : ℚ)
  | highlight (selector : String) (durationMs : ℚ)
  | smoothScrollTo (selector : String)
  | scroll (direction : String) (pixels : ℚ)
  | warnUnknown (type : String)
deriving DecidableEq

/-- The `if/elif` chain over `action.get('type')`: which collaborator call a
given action produces.  `scroll` branches on `'selector' in action`; an
unrecognised type is only logged as a warning. -/
def actionCall (a : ActionSpec) : BrowserCall :=
  if a.type = "click" then BrowserCall.click (a.selector.getD "")
  else if a.type = "type" then BrowserCall.typeText (a.selector.getD "") a.text
  else if a.type = "navigate" then BrowserCall.navigate a.url
  else if a.type = "upload" then BrowserCall.upload (a.selector.getD "") a.file_path
  else if a.type = "wait" then BrowserCall.waitSleep (a.duration.getD 1)
  else if a.type = "highlight" then
    BrowserCall.highlight (a.selector.getD "") (a.duration.getD 1000)
  else if a.type = "scroll" then
    match a.selector with
    | some s => BrowserCall.smoothScrollTo s
    | none => BrowserCall.scroll (a.direction.getD "down") (a.pixels.getD 500)
  else BrowserCall.warnUnknown a.type

/-- Outcome of dispatching action number `i`.  `browser` is the
browser-automation oracle: `browser i` is the result of the external call made
for action `i` (`Except.error` models the call raising, which the loop's
`except` clause catches).  A `wait` action is a plain `asyncio.sleep`, and an
unknown type makes no external call; neither can fail. -/
def dispatchResult (browser : Nat → Except String Unit) (i : Nat)
    (a : ActionSpec) : Except String Unit :=
  match actionCall a with
  | BrowserCall.waitSleep _ => Except.ok ()
  | BrowserCall.warnUnknown _ => Except.ok ()
  | _ => browser i

/-- Per-action pacing delay in milliseconds: an explicit `delay` overrides the
computed share, otherwise the remainder of the share after the measured
execution time, floored at zero. -/
def pace_delay_ms (a : ActionSpec) (share elapsedMs : ℚ) : ℚ :=
  match a.delay with
  | some d => d * 1000
  | none => max 0 (share - elapsedMs)

/-- Per-action record (instrumented): the Python loop logs each action and,
in its `except` clause, records an action-level failure and continues. -/
structure ActionOutcome where
  index : Nat
  ok : Bool
  error : Option String
deriving DecidableEq

/-- Observable pacer events (instrumented): dispatch of action `i`, and the
pacing sleep that follows it. -/
inductive PacerEvent where
  | dispatch (i : Nat)
  | paceSleep (i : Nat) (ms : ℚ)
deriving DecidableEq

/-- The default per-action share: 80 % of the audio duration divided evenly
over the actions when both are positive, otherwise a fixed 500 ms. -/
def time_per_action_ms (audio_duration_ms : ℚ) (n : Nat) : ℚ :=
  if 0 < audio_duration_ms ∧ 0 < n then
    let action_budget_ms := audio_duration_ms * (8 / 10)
    action_budget_ms / n
  else 500

/-- The `for` loop of `_execute_browser_actions`, from action number `i` on.
`elapsedMs i` is the measured execution time of action `i` (wall-clock, an
oracle).  On success the pacing sleep runs if positive; on failure the
`except` clause logs the error and `continue`s, skipping the sleep.  Returns
the per-action outcomes and the dispatch/sleep event trace. -/
def runActions (share : ℚ) (browser : Nat → Except String Unit)
    (elapsedMs : Nat → ℚ) :
    Nat → List ActionSpec → List ActionOutcome × List PacerEvent
  | _, [] => ([], [])
  | i, a :: rest =>
      let tail := runActions share browser elapsedMs (i + 1) rest
      match dispatchResult browser i a with
      | Except.ok _ =>
          let d := pace_delay_ms a share (elapsedMs i)
          (⟨i, true, none⟩ :: tail.1,
            (PacerEvent.dispatch i ::
              (if 0 < d then [PacerEvent.paceSleep i d] else [])) ++ tail.2)
      | Except.error e =>
          (⟨i, false, some e⟩ :: tail.1, PacerEvent.dispatch i :: tail.2)

/-- `AudioSynchronizer._execute_browser_actions`: compute the per-action share
from the audio duration, then run the loop over the whole list. -/
def execute_browser_actions (actions : List ActionSpec)
    (browser : Nat → Except String Unit) (elapsedMs : Nat → ℚ)
    (audio_duration_ms : ℚ) : List ActionOutcome × List PacerEvent :=
  runActions (time_per_action_ms audio_duration_ms actions.length)
    browser elapsedMs 0 actions

/-! ## AudioSynchronizer.sync_narrate_and_act (lines 351–401) -/

/-- Lead delay in seconds before the actions start:
`min(word_count * 0.05, 2.0)`. -/
def start_delay_s (w : Nat) : ℚ :=
  min ((w : ℚ) * 5 / 100) 2

/-- Composite result of one synchronized step (the Python method returns the
audio result; the lead delay, outcomes and event trace are instrumented). -/
structure SyncResult where
  audio_result : NarrationResult
  lead_delay_s : ℚ
  outcomes : List ActionOutcome
  events : List PacerEvent
deriving DecidableEq

/-- `AudioSynchronizer.sync_narrate_and_act`: estimate the duration from the
word count, start the narration task, sleep the lead delay, then run the
action list budgeted against the ESTIMATED duration (not the measured one),
and await both. -/
def sync_narrate_and_act (clientAvailable : Bool)
    (memCache diskCache : Option Bytes) (gen : Except String Bytes)
    (pydub : Except String ℚ) (browser : Nat → Except String Unit)
    (elapsedMs : Nat → ℚ) (narration : String)
    (browser_actions : List ActionSpec) : SyncResult :=
  let word_count := wordCount narration
  let est := estimated_duration_ms word_count
  let audio := narrate_and_wait clientAvailable memCache diskCache gen pydub narration
  let acted := execute_browser_actions browser_actions browser elapsedMs est
  { audio_result := audio
    lead_delay_s := start_delay_s word_count
    outcomes := acted.1
    events := acted.2 }

/-! ## DemoCopilot session state and LangGraph nodes (`demo_copilot.py`)

`DemoCopilotState` is a dictionary; the `metadata` sub-dictionary keys the
core reads and writes (`has_pending_question`, `pending_question`,
`started_at`, `completed_at`, `duration_seconds`) are flattened into fields.
`narrations` is the instrumented trace of every text handed to
`voice.text_to_speech` (the spoken output).  Timestamps are rationals
(seconds). -/

/-- One step of a demo script (the fields the engine reads). -/
structure Step where
  name : String
  narration : String
  browser_actions : List ActionSpec
deriving DecidableEq

/-- One entry of `state['messages']` (role and content; timestamps and step
numbers are bookkeeping the claims do not touch). -/
structure Msg where
  role : String
  content : String
deriving DecidableEq

/-- The session state. -/
structure DemoState where
  current_step : Nat
  status : String
  demo_script : List Step
  has_pending_question : Bool
  pending_question : String
  messages : List Msg
  errors : List String
  narrations : List String
  started_at : ℚ
  completed_at : Option ℚ
  duration_seconds : Option ℚ
deriving DecidableEq

/-- Parsed language-model reply used by `_handle_question` (`answer`,
`action`, `feature` keys of `QuestionHandler.handle_question`'s result). -/
structure QHResponse where
  answer : String
  action : String
  feature : String
deriving DecidableEq

/-- Placeholder step for out-of-range indexing; the graph only reaches
`_execute_step` when `_should_continue` returned "execute_step", so the
cursor is in range there. -/
def dummyStep : Step :=
  { name := "", narration := "", browser_actions := [] }

/-- `DemoCopilot._check_for_questions` (node "check_questions"): the check is
stubbed — it unconditionally writes `has_pending_question = False`
("For now, simulate no questions"). -/
def check_for_questions (s : DemoState) : DemoState :=
  { s with has_pending_question := false }

/-- `DemoCopilot._should_handle_question`: the conditional edge out of
"check_questions". -/
def should_handle_question (s : DemoState) : String :=
  if s.has_pending_question then "handle_question" else "next_step"

/-- Loop of `DemoCopilot._find_step_for_feature` from index `i` on:
first step whose name contains the feature, case-insensitively. -/
def findStepAux (feature : String) : Nat → List Step → Option Nat
  | _, [] => none
  | i, st :: rest =>
      if containsCI feature st.name then some i
      else findStepAux feature (i + 1) rest

/-- `DemoCopilot._find_step_for_feature`. -/
def find_step_for_feature (feature : String) (script : List Step) : Option Nat :=
  findStepAux feature 0 script

/-- `DemoCopilot._handle_question` (node "handle_question"), with the
language-model collaborator's parsed reply `r` as oracle: narrate the answer;
if the reply asks for a feature jump, look the feature up and — because of the
Python truthiness test `if new_step:` — move the cursor only when the found
index is non-zero; append the user/assistant messages; clear the pending
question. -/
def handle_question (r : QHResponse) (s : DemoState) : DemoState :=
  let question := s.pending_question
  let s1 := { s with narrations := s.narrations ++ [r.answer] }
  let s2 :=
    if r.action = "jump_to_feature" then
      match find_step_for_feature r.feature s1.demo_script with
      | some new_step => if new_step ≠ 0 then { s1 with current_step := new_step } else s1
      | none => s1
    else s1
  { s2 with
    messages := s2.messages ++ [⟨"user", question⟩, ⟨"assistant", r.answer⟩],
    has_pending_question := false,
    pending_question := "" }

/-- `DemoCopilot._advance_to_next_step` (node "next_step"): unconditionally
increment the cursor. -/
def advance_to_next_step (s : DemoState) : DemoState :=
  { s with current_step := s.current_step + 1 }

/-- `DemoCopilot._should_continue`: the conditional edge out of "next_step".
Only the error list and the cursor position are consulted — never the
status. -/
def should_continue (s : DemoState) : String :=
  if s.errors ≠ [] then "error"
  else if s.demo_script.length ≤ s.current_step then "complete"
  else "execute_step"

/-- `DemoCopilot._execute_step` (node "execute_step"): take the step at the
cursor, strip its narration, run the synchronizer, append the assistant
message.  Every failure inside the synchronizer is caught below it (per
action, or inside the voice engine), so the node's own `except` clause never
fires and `errors` is untouched; the cursor is untouched too. -/
def execute_step (clientAvailable : Bool) (memCache diskCache : Option Bytes)
    (gen : Except String Bytes) (pydub : Except String ℚ)
    (browser : Nat → Except String Unit) (elapsedMs : Nat → ℚ)
    (s : DemoState) : DemoState × SyncResult :=
  let step_data := s.demo_script.getD s.current_step dummyStep
  let narration := step_data.narration.trim
  let res := sync_narrate_and_act clientAvailable memCache diskCache gen pydub
    browser elapsedMs narration step_data.browser_actions
  ({ s with
      narrations := s.narrations ++ [narration],
      messages := s.messages ++ [⟨"assistant", narration⟩] },
    res)

/-- `DemoCopilot._complete_demo` (node "complete"): mark completed and report
`duration_seconds` as the plain difference of the completion and start
timestamps — full wall-clock time. -/
def complete_demo (now : ℚ) (s : DemoState) : DemoState :=
  { s with
    status := "completed",
    completed_at := some now,
    duration_seconds := some (now - s.started_at) }

/-- `DemoCopilot._handle_error` (node "error_handler"). -/
def handle_error_node (s : DemoState) : DemoState :=
  { s with status := "error" }

/-- `DemoCopilot.pause_demo`: sets the status label only.  No pause timestamp
is recorded and nothing else changes. -/
def pause_demo (s : DemoState) : DemoState :=
  { s with status := "paused" }

/-- `DemoCopilot.resume_demo`: back to running if currently paused.  No paused
duration is accumulated. -/
def resume_demo (s : DemoState) : DemoState :=
  if s.status = "paused" then { s with status := "running" } else s

/-- `DemoCopilot.ask_question`: whenever a session exists, unconditionally set
the pending flag and store the question, overwriting any question already
pending.  No status check of any kind is made. -/
def ask_question (q : String) (s : DemoState) : DemoState :=
  { s with has_pending_question := true, pending_question := q }

/-! ## Spec-side formulas (for refinement comparisons)

These two definitions follow the specification's words, to be compared with
the source-derived `start_delay_s` and `time_per_action_ms`. -/

/-- Modelled from the spec: a lead delay of 50 ms per word capped at
2 seconds. -/
def spec_lead_delay_s (w : Nat) : ℚ :=
  min ((50 * (w : ℚ)) / 1000) 2

/-- Modelled from the spec: the default per-action share is 80 % of the
estimated narration duration split evenly across the `n` actions. -/
def spec_default_share_ms (est : ℚ) (n : Nat) : ℚ :=
  (8 / 10) * est / n

/-! ## Concrete fixtures used by counterexamples and witnesses -/

/-- A four-step script shaped like the shipped InSign script (its
"Pricing Comparison" step is step 11 of 12 there; four steps suffice). -/
def exScript : List Step :=
  [ { name := "Greeting", narration := "Hi there", browser_actions := [] },
    { name := "Dashboard Overview", narration := "The dashboard", browser_actions := [] },
    { name := "Pricing Comparison", narration := "Pricing time", browser_actions := [] },
    { name := "Closing & Next Steps", narration := "Wrapping up", browser_actions := [] } ]

/-- A running session over `exScript` with a question pending. -/
def exState : DemoState :=
  { current_step := 0
    status := "running"
    demo_script := exScript
    has_pending_question := true
    pending_question := "Q1"
    messages := []
    errors := []
    narrations := []
    started_at := 0
    completed_at := none
    duration_seconds := none }

/-- The language-model reply of Scenario D: jump to "pricing". -/
def exJumpReply : QHResponse :=
  { answer := "Sure, let me show you pricing.",
    action := "jump_to_feature",
    feature := "pricing" }

/-- A reply whose feature matches the first step of `exScript` (index 0). -/
def exGreetReply : QHResponse :=
  { answer := "Back to the greeting.",
    action := "jump_to_feature",
    feature := "greet" }

/-- Placeholder action for out-of-range indexing in index-based statements. -/
def dummyAction : ActionSpec :=
  { type := "" }

/-- The per-action record the loop body produces for action `i` (success on
`Except.ok`, the caught error on `Except.error`). -/
def outcomeAt (browser : Nat → Except String Unit) (i : Nat)
    (a : ActionSpec) : ActionOutcome :=
  match dispatchResult browser i a with
  | Except.ok _ => ⟨i, true, none⟩
  | Except.error e => ⟨i, false, some e⟩

/-- Two plain click actions with no explicit delay, as in the shipped script. -/
def exClickA : ActionSpec :=
  { type := "click", selector := some ".plan-a" }

/-- Second click fixture. -/
def exClickB : ActionSpec :=
  { type := "click", selector := some ".plan-b" }

/-- A five-action step body, the shape of Scenario "one failure in five". -/
def exActions5 : List ActionSpec :=
  [ exClickA,
    exClickB,
    { type := "navigate", url := "https://demo.insign.io/pricing" },
    { type := "highlight", selector := some ".pricing-comparison-table", duration := some 3000 },
    { type := "scroll", selector := some ".feature-comparison" } ]

/-- Browser oracle that raises on action 0 and succeeds elsewhere. -/
def exBrowserFail0 : Nat → Except String Unit :=
  fun i => if i = 0 then Except.error "boom" else Except.ok ()

/-- Browser oracle that raises on action 2 and succeeds elsewhere. -/
def exBrowserFail2 : Nat → Except String Unit :=
  fun i => if i = 2 then Except.error "click intercepted" else Except.ok ()

/-! # Theorems -/

/-! ## General lemmas about the action pacer loop -/

theorem outcomeAt_index (browser : Nat → Except String Unit) (i : Nat)
    (a : ActionSpec) : (outcomeAt browser i a).index = i := by
  unfold outcomeAt
  cases dispatchResult browser i a <;> rfl

theorem runActions_fst_cons (share : ℚ) (browser : Nat → Except String Unit)
    (elapsedMs : Nat → ℚ) (i : Nat) (a : ActionSpec) (rest : List ActionSpec) :
    (runActions share browser elapsedMs i (a :: rest)).1
      = outcomeAt browser i a :: (runActions share browser elapsedMs (i + 1) rest).1 := by
  cases h : dispatchResult browser i a <;> simp [runActions, outcomeAt, h]

theorem runActions_fst_eq (share : ℚ) (browser : Nat → Except String Unit)
    (elapsedMs : Nat → ℚ) :
    ∀ (actions : List ActionSpec) (i : Nat),
      (runActions share browser elapsedMs i actions).1
        = (List.range actions.length).map
            (fun k => outcomeAt browser (i + k) (actions.getD k dummyAction)) := by
  intro actions
  induction actions with
  | nil => intro i; simp [runActions]
  | cons a rest ih =>
      intro i
      rw [runActions_fst_cons, ih (i + 1), List.length_cons, List.range_succ_eq_map,
        List.map_cons, List.map_map]
      congr 1
      refine List.map_congr_left ?_
      intro k hk
      have h2 : i + 1 + k = i + (k + 1) := by omega
      simp [Function.comp, List.getD_cons_succ, h2]

theorem runActions_fst_length (share : ℚ) (browser : Nat → Except String Unit)
    (elapsedMs : Nat → ℚ) (actions : List ActionSpec) (i : Nat) :
    ((runActions share browser elapsedMs i actions).1).length = actions.length := by
  rw [runActions_fst_eq]
  simp

theorem runActions_snd_head (share : ℚ) (browser : Nat → Except String Unit)
    (elapsedMs : Nat → ℚ) (i : Nat) (a : ActionSpec) (rest : List ActionSpec) :
    ∃ tl, (runActions share browser elapsedMs i (a :: rest)).2
      = PacerEvent.dispatch i :: tl := by
  cases h : dispatchResult browser i a
  · exact ⟨(runActions share browser elapsedMs (i + 1) rest).2, by simp [runActions, h]⟩
  · exact ⟨(if 0 < pace_delay_ms a share (elapsedMs i)
        then [PacerEvent.paceSleep i (pace_delay_ms a share (elapsedMs i))] else [])
      ++ (runActions share browser elapsedMs (i + 1) rest).2, by simp [runActions, h]⟩

theorem runActions_snd_cons_err (share : ℚ) (browser : Nat → Except String Unit)
    (elapsedMs : Nat → ℚ) (i : Nat) (a : ActionSpec) (rest : List ActionSpec)
    (e : String) (h : dispatchResult browser i a = Except.error e) :
    (runActions share browser elapsedMs i (a :: rest)).2
      = PacerEvent.dispatch i :: (runActions share browser elapsedMs (i + 1) rest).2 := by
  simp [runActions, h]

theorem runActions_snd_cons_ok (share : ℚ) (browser : Nat → Except String Unit)
    (elapsedMs : Nat → ℚ) (i : Nat) (a : ActionSpec) (rest : List ActionSpec)
    (h : dispatchResult browser i a = Except.ok ())
    (hd : 0 < pace_delay_ms a share (elapsedMs i)) :
    (runActions share browser elapsedMs i (a :: rest)).2
      = PacerEvent.dispatch i :: PacerEvent.paceSleep i (pace_delay_ms a share (elapsedMs i))
          :: (runActions share browser elapsedMs (i + 1) rest).2 := by
  simp [runActions, h, hd]

theorem runActions_snd_decomp (share : ℚ) (browser : Nat → Except String Unit)
    (elapsedMs : Nat → ℚ) (i : Nat) (a : ActionSpec) (rest : List ActionSpec) :
    ∃ blk, (runActions share browser elapsedMs i (a :: rest)).2
      = blk ++ (runActions share browser elapsedMs (i + 1) rest).2 := by
  cases h : dispatchResult browser i a
  · exact ⟨[PacerEvent.dispatch i], by simp [runActions, h]⟩
  · exact ⟨PacerEvent.dispatch i ::
      (if 0 < pace_delay_ms a share (elapsedMs i)
        then [PacerEvent.paceSleep i (pace_delay_ms a share (elapsedMs i))] else []),
      by simp [runActions, h]⟩

theorem runActions_infix_err (share : ℚ) (browser : Nat → Except String Unit)
    (elapsedMs : Nat → ℚ) (a b : ActionSpec) (post : List ActionSpec) (e : String) :
    ∀ (pre : List ActionSpec) (i : Nat),
      dispatchResult browser (i + pre.length) a = Except.error e →
      [PacerEvent.dispatch (i + pre.length), PacerEvent.dispatch (i + pre.length + 1)]
        <:+: (runActions share browser elapsedMs i (pre ++ a :: b :: post)).2 := by
  intro pre
  induction pre with
  | nil =>
      intro i h
      simp only [List.length_nil, Nat.add_zero] at h ⊢
      obtain ⟨tl, htl⟩ := runActions_snd_head share browser elapsedMs (i + 1) b post
      rw [List.nil_append,
        runActions_snd_cons_err share browser elapsedMs i a (b :: post) e h, htl]
      exact List.IsPrefix.isInfix ⟨tl, rfl⟩
  | cons p pre ih =>
      intro i h
      have hl : i + (p :: pre).length = (i + 1) + pre.length := by
        simp only [List.length_cons]
        omega
      rw [hl] at h ⊢
      obtain ⟨blk, hblk⟩ :=
        runActions_snd_decomp share browser elapsedMs i p (pre ++ a :: b :: post)
      rw [List.cons_append, hblk]
      exact (ih (i + 1) h).trans (List.suffix_append blk _).isInfix

theorem runActions_infix_ok (share : ℚ) (browser : Nat → Except String Unit)
    (elapsedMs : Nat → ℚ) (a b : ActionSpec) (post : List ActionSpec) :
    ∀ (pre : List ActionSpec) (i : Nat),
      dispatchResult browser (i + pre.length) a = Except.ok () →
      0 < pace_delay_ms a share (elapsedMs (i + pre.length)) →
      [PacerEvent.dispatch (i + pre.length),
        PacerEvent.paceSleep (i + pre.length)
          (pace_delay_ms a share (elapsedMs (i + pre.length))),
        PacerEvent.dispatch (i + pre.length + 1)]
        <:+: (runActions share browser elapsedMs i (pre ++ a :: b :: post)).2 := by
  intro pre
  induction pre with
  | nil =>
      intro i h hd
      simp only [List.length_nil, Nat.add_zero] at h hd ⊢
      obtain ⟨tl, htl⟩ := runActions_snd_head share browser elapsedMs (i + 1) b post
      rw [List.nil_append,
        runActions_snd_cons_ok share browser elapsedMs i a (b :: post) h hd, htl]
      exact List.IsPrefix.isInfix ⟨tl, rfl⟩
  | cons p pre ih =>
      intro i h hd
      have hl : i + (p :: pre).length = (i + 1) + pre.length := by
        simp only [List.length_cons]
        omega
      rw [hl] at h hd ⊢
      obtain ⟨blk, hblk⟩ :=
        runActions_snd_decomp share browser elapsedMs i p (pre ++ a :: b :: post)
      rw [List.cons_append, hblk]
      exact (ih (i + 1) h hd).trans (List.suffix_append blk _).isInfix

/-! ## C1 — askQuestion is never rejected; injected questions are never
answered by the compiled graph -/

/-- Claim C1, counterexample.  The claim says a second `askQuestion` while a
question is already in flight is rejected as a no-op.  In the code
`ask_question` performs no state check whatsoever: with question "Q1" already
pending, `ask_question("Q2")` is accepted and overwrites the pending
question, so the call is not a no-op (and "Q1" can never be answered). -/
theorem c1_ask_question_not_rejected :
    exState.has_pending_question = true ∧
    exState.pending_question = "Q1" ∧
    (ask_question "Q2" exState).pending_question = "Q2" ∧
    ask_question "Q2" exState ≠ exState := by
  decide

/-- Claim C1, amended.  `ask_question` unconditionally records the question
(pending flag set, text overwritten, status untouched — no rejection in any
state); each invocation of the question-handler node narrates exactly one
answer and retires the question; and the stubbed check node clears the
pending flag, so the conditional edge out of "check_questions" always routes
to "next_step" and an injected question never reaches the handler at all. -/
theorem c1_question_flow :
    (∀ (q : String) (s : DemoState),
      (ask_question q s).has_pending_question = true ∧
      (ask_question q s).pending_question = q ∧
      (ask_question q s).status = s.status) ∧
    (∀ (r : QHResponse) (s : DemoState),
      (handle_question r s).narrations = s.narrations ++ [r.answer] ∧
      (handle_question r s).has_pending_question = false ∧
      (handle_question r s).pending_question = "") ∧
    (∀ s : DemoState, should_handle_question (check_for_questions s) = "next_step") := by
  refine ⟨fun q s => ⟨rfl, rfl, rfl⟩, fun r s => ?_, fun s => rfl⟩
  unfold handle_question
  cases hf : find_step_for_feature r.feature s.demo_script <;>
    by_cases ha : r.action = "jump_to_feature" <;>
      simp [hf, ha] <;> split <;> simp

/-! ## C2 — a question-directed jump lands one step past the target -/

/-- Claim C2, violated by the code.  With the four-step `exScript` and the
Scenario D reply (jump to "pricing"), `_handle_question` sets the cursor to
the matched index 2 ("Pricing Comparison"); but the compiled graph routes
handle_question → check_questions → next_step, and `_advance_to_next_step`
increments the cursor to 3 before `_execute_step` runs again, so the next
step executed is "Closing & Next Steps", not the named target.  Moreover the
stubbed `_check_for_questions` clears the pending flag, so in the compiled
graph an injected question is dropped before the handler is even reached. -/
theorem c2_jump_target_skipped :
    find_step_for_feature "pricing" exScript = some 2 ∧
    (exScript.getD 2 dummyStep).name = "Pricing Comparison" ∧
    (handle_question exJumpReply exState).current_step = 2 ∧
    (advance_to_next_step (check_for_questions
        (handle_question exJumpReply exState))).current_step = 3 ∧
    should_continue (advance_to_next_step (check_for_questions
        (handle_question exJumpReply exState))) = "execute_step" ∧
    (exScript.getD 3 dummyStep).name = "Closing & Next Steps" ∧
    should_handle_question (check_for_questions exState) = "next_step" := by
  decide

/-! ## C3 — pause does not stop the cursor -/

/-- Claim C3, violated by the code.  `pause_demo` only writes the status
label: with the session paused, `_advance_to_next_step` still increments the
cursor and `_should_continue` (which never reads the status) still routes to
"execute_step", so the workflow keeps advancing between `pause()` and
`resume()`. -/
theorem c3_paused_cursor_advances :
    (pause_demo exState).status = "paused" ∧
    (advance_to_next_step (pause_demo exState)).status = "paused" ∧
    (advance_to_next_step (pause_demo exState)).current_step
      = exState.current_step + 1 ∧
    should_continue (advance_to_next_step (pause_demo exState)) = "execute_step" := by
  decide

/-! ## C5 — degraded narration still paces proportionally -/

/-- Claim C5, counterexample.  Narration collaborator completely dead
(client unavailable, generator raising, pydub raising): the narration result
is empty with zero duration, yet for the 3-word narration "Here is pricing"
over two delay-free click actions the pacer sleeps 480 ms after each action —
the proportional share `0.8 · 1200 / 2` derived from the word-count estimate —
although no action carries any explicit wait duration.  This refutes
"using only the explicit per-action wait durations as its budget with no
proportional pacing". -/
theorem c5_proportional_pacing_with_dead_narration :
    narrate_and_wait false none none (Except.error "offline") (Except.error "no audio")
        "Here is pricing"
      = { audio_bytes := [], duration_ms := 0, text := "Here is pricing" } ∧
    exClickA.delay = none ∧
    exClickB.delay = none ∧
    exClickA.type ≠ "wait" ∧
    exClickB.type ≠ "wait" ∧
    (execute_browser_actions [exClickA, exClickB] (fun _ => Except.ok ()) (fun _ => 0)
        (estimated_duration_ms (wordCount "Here is pricing"))).2
      = [PacerEvent.dispatch 0, PacerEvent.paceSleep 0 480,
          PacerEvent.dispatch 1, PacerEvent.paceSleep 1 480] ∧
    (480 : ℚ) ≠ 0 := by
  refine ⟨rfl, rfl, rfl, by decide, by decide, ?_, by norm_num⟩
  have hw : wordCount "Here is pricing" = 3 := by decide
  have hest : estimated_duration_ms 3 = 1200 := by norm_num [estimated_duration_ms]
  have hshare : time_per_action_ms 1200 2 = 480 := by norm_num [time_per_action_ms]
  simp only [execute_browser_actions, List.length_cons, List.length_nil, hw, hest,
    Nat.reduceAdd, hshare]
  rw [runActions_snd_cons_ok 480 (fun _ => Except.ok ()) (fun _ => 0) 0 exClickA [exClickB]
      (by decide) (by norm_num [pace_delay_ms, exClickA]),
    runActions_snd_cons_ok 480 (fun _ => Except.ok ()) (fun _ => 0) (0 + 1) exClickB []
      (by decide) (by norm_num [pace_delay_ms, exClickB])]
  norm_num [runActions, pace_delay_ms, exClickA, exClickB]

/-- Claim C5, amended.  When the narration collaborator is unavailable the
step still degrades gracefully — the narration result is empty with zero
duration, every action of the list is still executed, and the step completes
(the synchronizer is total) — but the pacer budget is NOT only the explicit
waits: it is the word-count-estimated duration, computed independently of the
collaborator, so the pacer behaves identically whether the collaborator is
dead or alive. -/
theorem c5_degraded_narration (narration : String) (actions : List ActionSpec)
    (memCache diskCache : Option Bytes) (gen : Except String Bytes)
    (pydub : Except String ℚ) (browser : Nat → Except String Unit)
    (elapsedMs : Nat → ℚ) :
    (sync_narrate_and_act false memCache diskCache gen pydub browser elapsedMs
        narration actions).audio_result
      = { audio_bytes := [], duration_ms := 0, text := narration } ∧
    ((sync_narrate_and_act false memCache diskCache gen pydub browser elapsedMs
        narration actions).outcomes).length = actions.length ∧
    (sync_narrate_and_act false memCache diskCache gen pydub browser elapsedMs
        narration actions).events
      = (sync_narrate_and_act true (some [7]) none (Except.ok [7]) (Except.ok 1234)
          browser elapsedMs narration actions).events := by
  refine ⟨rfl, ?_, rfl⟩
  exact runActions_fst_length _ browser elapsedMs actions 0

/-! ## C6 — reported duration is full wall clock, pauses not subtracted -/

/-- Claim C6, counterexample.  Session started at `t = 0`, paused at
`t = 10`, resumed at `t = 20` (a 10-second pause — no timestamp of it is even
recorded), completed at `t = 30`: the claim demands a reported duration of
`30 − 10 = 20` seconds, but `_complete_demo` reports the full wall-clock
difference `30`; the 10-second gap exceeds any small tolerance. -/
theorem c6_pause_not_subtracted :
    exState.started_at = 0 ∧
    (complete_demo 30 (resume_demo (pause_demo exState))).duration_seconds
      = some 30 ∧
    (30 : ℚ) ≠ 30 - 10 := by
  norm_num [exState, complete_demo, resume_demo, pause_demo]

/-- Claim C6, amended.  The duration reported at completion is exactly the
wall-clock difference `completed_at − started_at`; `pause_demo` only writes
the status label (recording no timestamp), `resume_demo` restores "running"
(accumulating nothing), and a pause/resume pair leaves the reported duration
identical to the uninterrupted one. -/
theorem c6_wall_clock_duration :
    (∀ (s : DemoState) (now : ℚ),
      (complete_demo now s).duration_seconds = some (now - s.started_at)) ∧
    (∀ s : DemoState, pause_demo s = { s with status := "paused" }) ∧
    (∀ s : DemoState, resume_demo (pause_demo s) = { s with status := "running" }) ∧
    (∀ (s : DemoState) (now : ℚ),
      (complete_demo now (resume_demo (pause_demo s))).duration_seconds
        = some (now - s.started_at)) := by
  refine ⟨fun s now => rfl, fun s => rfl, fun s => ?_, fun s now => ?_⟩ <;>
    simp [pause_demo, resume_demo, complete_demo]

/-! ## C8 — speech synthesis degrades to empty audio instead of raising -/

/-- Claim C8, confirmed.  If the speech backend is unavailable
(`clientAvailable = false`) or the generation call raises (generator oracle
`Except.error`, reached when both caches miss), `narrate_and_wait` returns an
empty payload with zero measured duration; the embedded functions are total,
which reflects that every exception path inside `text_to_speech` is caught
and converted to `b""`.  Whatever the voice oracles do, the step node leaves
the error list and the cursor untouched, so the session continues. -/
theorem c8_narration_unavailable_graceful :
    (∀ (memCache diskCache : Option Bytes) (gen : Except String Bytes)
        (pydub : Except String ℚ) (text : String),
      narrate_and_wait false memCache diskCache gen pydub text
        = { audio_bytes := [], duration_ms := 0, text := text }) ∧
    (∀ (e : String) (pydub : Except String ℚ) (text : String),
      narrate_and_wait true none none (Except.error e) pydub text
        = { audio_bytes := [], duration_ms := 0, text := text }) ∧
    (∀ (clientAvailable : Bool) (memCache diskCache : Option Bytes)
        (gen : Except String Bytes) (pydub : Except String ℚ)
        (browser : Nat → Except String Unit) (elapsedMs : Nat → ℚ)
        (s : DemoState),
      ((execute_step clientAvailable memCache diskCache gen pydub browser
          elapsedMs s).1).errors = s.errors ∧
      ((execute_step clientAvailable memCache diskCache gen pydub browser
          elapsedMs s).1).current_step = s.current_step) :=
  ⟨fun _ _ _ _ _ => rfl, fun _ _ _ => rfl,
    fun _ _ _ _ _ _ _ _ => ⟨rfl, rfl⟩⟩

/-! ## C4 — one failing action out of five: recorded, continued, session advances -/

/-- Claim C4, confirmed.  For any five-action list where exactly one dispatch
raises (index `j`) and the other four succeed, the pacer loop runs to the end:
the instrumented outcome list has length 5, is ordered by action index, and
its failure entries are exactly the one caught error at `j` (the loop's
`except` clause records it and `continue`s).  The step node's own error list
is untouched by any of this — per-action exceptions never escape the loop —
so the routing after the step is never the "error" edge and the sequencer
advances. -/
theorem c4_single_failure_step (browser : Nat → Except String Unit)
    (elapsedMs : Nat → ℚ) (dur : ℚ) (actions : List ActionSpec) (j : Nat) (e : String)
    (hlen : actions.length = 5) (hj : j < 5)
    (hfail : dispatchResult browser j (actions.getD j dummyAction) = Except.error e)
    (hok : ∀ i, i < 5 → i ≠ j →
      dispatchResult browser i (actions.getD i dummyAction) = Except.ok ()) :
    ((execute_browser_actions actions browser elapsedMs dur).1).length = 5 ∧
    ((execute_browser_actions actions browser elapsedMs dur).1).map ActionOutcome.index
      = [0, 1, 2, 3, 4] ∧
    ((execute_browser_actions actions browser elapsedMs dur).1).filter (fun o => !o.ok)
      = [{ index := j, ok := false, error := some e }] ∧
    (∀ (clientAvailable : Bool) (memCache diskCache : Option Bytes)
        (gen : Except String Bytes) (pydub : Except String ℚ) (s : DemoState),
      ((execute_step clientAvailable memCache diskCache gen pydub browser
          elapsedMs s).1).errors = s.errors) ∧
    (∀ (clientAvailable : Bool) (memCache diskCache : Option Bytes)
        (gen : Except String Bytes) (pydub : Except String ℚ) (s : DemoState),
      s.errors = [] →
      should_continue (advance_to_next_step (check_for_questions
        ((execute_step clientAvailable memCache diskCache gen pydub browser
          elapsedMs s).1))) ≠ "error") := by
  have hout : (execute_browser_actions actions browser elapsedMs dur).1
      = (List.range 5).map
          (fun k => outcomeAt browser (0 + k) (actions.getD k dummyAction)) := by
    unfold execute_browser_actions
    rw [runActions_fst_eq, hlen]
  have hr5 : List.range 5 = [0, 1, 2, 3, 4] := rfl
  refine ⟨?_, ?_, ?_, ?_, ?_⟩
  · rw [hout]
    simp
  · rw [hout, hr5]
    simp [outcomeAt_index]
  · rw [hout, hr5]
    interval_cases j
    · have h1 := hok 1 (by omega) (by omega)
      have h2 := hok 2 (by omega) (by omega)
      have h3 := hok 3 (by omega) (by omega)
      have h4 := hok 4 (by omega) (by omega)
      simp only [List.map_cons, List.map_nil, outcomeAt, Nat.zero_add]
      rw [hfail, h1, h2, h3, h4]
      simp
    · have h0 := hok 0 (by omega) (by omega)
      have h2 := hok 2 (by omega) (by omega)
      have h3 := hok 3 (by omega) (by omega)
      have h4 := hok 4 (by omega) (by omega)
      simp only [List.map_cons, List.map_nil, outcomeAt, Nat.zero_add]
      rw [hfail, h0, h2, h3, h4]
      simp
    · have h0 := hok 0 (by omega) (by omega)
      have h1 := hok 1 (by omega) (by omega)
      have h3 := hok 3 (by omega) (by omega)
      have h4 := hok 4 (by omega) (by omega)
      simp only [List.map_cons, List.map_nil, outcomeAt, Nat.zero_add]
      rw [hfail, h0, h1, h3, h4]
      simp
    · have h0 := hok 0 (by omega) (by omega)
      have h1 := hok 1 (by omega) (by omega)
      have h2 := hok 2 (by omega) (by omega)
      have h4 := hok 4 (by omega) (by omega)
      simp only [List.map_cons, List.map_nil, outcomeAt, Nat.zero_add]
      rw [hfail, h0, h1, h2, h4]
      simp
    · have h0 := hok 0 (by omega) (by omega)
      have h1 := hok 1 (by omega) (by omega)
      have h2 := hok 2 (by omega) (by omega)
      have h3 := hok 3 (by omega) (by omega)
      simp only [List.map_cons, List.map_nil, outcomeAt, Nat.zero_add]
      rw [hfail, h0, h1, h2, h3]
      simp
  · intro clientAvailable memCache diskCache gen pydub s
    rfl
  · intro clientAvailable memCache diskCache gen pydub s hs
    show (if s.errors ≠ [] then "error"
        else if s.demo_script.length ≤ s.current_step + 1 then "complete"
        else "execute_step") ≠ "error"
    rw [hs]
    simp only [ne_eq, not_true_eq_false, ite_false]
    split <;> simp

/-- Claim C4, witness: the five-action fixture with the browser raising on
action 2 only. -/
theorem c4_single_failure_step_witness :
    ((execute_browser_actions exActions5 exBrowserFail2 (fun _ => 0) 1000).1).length = 5 ∧
    ((execute_browser_actions exActions5 exBrowserFail2 (fun _ => 0) 1000).1).filter
        (fun o => !o.ok)
      = [{ index := 2, ok := false, error := some "click intercepted" }] := by
  have h := c4_single_failure_step exBrowserFail2 (fun _ => 0) 1000 exActions5 2
    "click intercepted" (by decide) (by decide) (by decide)
    (by decide)
  exact ⟨h.1, h.2.2.1⟩

/-! ## C7 — pacing sleeps order actions, except after a failure -/

/-- Claim C7, counterexample.  Share 400 ms, two delay-free clicks, the first
dispatch raising: the trace is `dispatch 0` immediately followed by
`dispatch 1` — the `except` clause `continue`s past the pacing sleep of the
failed action 0, so action 1 starts with no pacing sleep in between (the only
sleep in the trace belongs to action 1).  This refutes "including when action
N fails". -/
theorem c7_failed_action_skips_sleep :
    (runActions 400 exBrowserFail0 (fun _ => 0) 0 [exClickA, exClickB]).2
      = [PacerEvent.dispatch 0, PacerEvent.dispatch 1, PacerEvent.paceSleep 1 400] := by
  rw [runActions_snd_cons_err 400 exBrowserFail0 (fun _ => 0) 0 exClickA [exClickB]
      "boom" (by decide),
    runActions_snd_cons_ok 400 exBrowserFail0 (fun _ => 0) (0 + 1) exClickB []
      (by decide) (by norm_num [pace_delay_ms, exClickB])]
  norm_num [runActions, pace_delay_ms, exClickB]

/-- Claim C7, amended.  Between two consecutive actions the trace is ordered
as the claim says whenever the earlier action's dispatch succeeds: its pacing
sleep (explicit delay or positive remainder of its share) sits between the
two dispatches.  When the earlier dispatch fails, the sleep is skipped and
the next dispatch follows immediately. -/
theorem c7_pacing_order (share : ℚ) (browser : Nat → Except String Unit)
    (elapsedMs : Nat → ℚ) (pre post : List ActionSpec) (a b : ActionSpec) (i : Nat) :
    (∀ e : String,
      dispatchResult browser (i + pre.length) a = Except.error e →
      [PacerEvent.dispatch (i + pre.length), PacerEvent.dispatch (i + pre.length + 1)]
        <:+: (runActions share browser elapsedMs i (pre ++ a :: b :: post)).2) ∧
    (dispatchResult browser (i + pre.length) a = Except.ok () →
      0 < pace_delay_ms a share (elapsedMs (i + pre.length)) →
      [PacerEvent.dispatch (i + pre.length),
        PacerEvent.paceSleep (i + pre.length)
          (pace_delay_ms a share (elapsedMs (i + pre.length))),
        PacerEvent.dispatch (i + pre.length + 1)]
        <:+: (runActions share browser elapsedMs i (pre ++ a :: b :: post)).2) :=
  ⟨fun e h => runActions_infix_err share browser elapsedMs a b post e pre i h,
    fun h hd => runActions_infix_ok share browser elapsedMs a b post pre i h hd⟩

/-- Claim C7, witness: a failing first action makes its dispatch and the next
action's dispatch adjacent in the trace. -/
theorem c7_pacing_order_witness :
    dispatchResult exBrowserFail0 0 exClickA = Except.error "boom" ∧
    [PacerEvent.dispatch 0, PacerEvent.dispatch 1]
      <:+: (runActions 400 exBrowserFail0 (fun _ => 0) 0 [exClickA, exClickB]).2 :=
  ⟨by decide,
    (c7_pacing_order 400 exBrowserFail0 (fun _ => 0) [] [] exClickA exClickB 0).1
      "boom" (by decide)⟩

/-! ## C9 — lead delay and pacing budget -/

/-- Claim C9, counterexample.  A step with empty narration (zero words, so a
zero estimated duration) and one action: the claim's budget formula
`0.8 · estimate / N` gives a share of `0`, but the code takes the
`else` branch of `_execute_browser_actions` and uses the fixed default share
of 500 ms instead. -/
theorem c9_zero_narration_default_share :
    wordCount "" = 0 ∧
    time_per_action_ms (estimated_duration_ms (wordCount "")) 1 = 500 ∧
    spec_default_share_ms (estimated_duration_ms (wordCount "")) 1 = 0 ∧
    (500 : ℚ) ≠ 0 := by
  have hw : wordCount "" = 0 := by decide
  refine ⟨hw, ?_, ?_, by norm_num⟩
  · rw [hw]
    norm_num [time_per_action_ms, estimated_duration_ms]
  · rw [hw]
    norm_num [spec_default_share_ms, estimated_duration_ms]

/-- Claim C9, amended.  For a step with at least one narration word and a
non-empty action list: the pacer starts only after the lead delay
`min(0.05 s · words, 2 s)` — exactly the spec's 50 ms per word capped at two
seconds; the pacer is budgeted against the word-count estimate; the default
per-action share equals the spec's `0.8 · estimate / N`; and an explicit
per-action `delay` overrides that share.  A zero-word narration instead falls
back to the fixed 500 ms default share. -/
theorem c9_pacing_parameters (narration : String) (actions : List ActionSpec)
    (clientAvailable : Bool) (memCache diskCache : Option Bytes)
    (gen : Except String Bytes) (pydub : Except String ℚ)
    (browser : Nat → Except String Unit) (elapsedMs : Nat → ℚ)
    (hw : 1 ≤ wordCount narration) (hn : actions ≠ []) :
    (sync_narrate_and_act clientAvailable memCache diskCache gen pydub browser
        elapsedMs narration actions).lead_delay_s
      = spec_lead_delay_s (wordCount narration) ∧
    (sync_narrate_and_act clientAvailable memCache diskCache gen pydub browser
        elapsedMs narration actions).lead_delay_s ≤ 2 ∧
    (sync_narrate_and_act clientAvailable memCache diskCache gen pydub browser
        elapsedMs narration actions).events
      = (execute_browser_actions actions browser elapsedMs
          (estimated_duration_ms (wordCount narration))).2 ∧
    time_per_action_ms (estimated_duration_ms (wordCount narration)) actions.length
      = spec_default_share_ms (estimated_duration_ms (wordCount narration))
          actions.length ∧
    (∀ (a : ActionSpec) (share el d : ℚ), a.delay = some d →
      pace_delay_ms a share el = d * 1000) ∧
    (∀ n : Nat, time_per_action_ms (estimated_duration_ms 0) n = 500) := by
  have hest : estimated_duration_ms (wordCount narration)
      = 400 * (wordCount narration : ℚ) := by
    unfold estimated_duration_ms
    ring
  have hwq : (1 : ℚ) ≤ (wordCount narration : ℚ) := by exact_mod_cast hw
  have hpos : 0 < estimated_duration_ms (wordCount narration) := by
    rw [hest]
    nlinarith
  have hlen : 0 < actions.length := List.length_pos.mpr hn
  refine ⟨?_, ?_, rfl, ?_, ?_, ?_⟩
  · show start_delay_s (wordCount narration) = spec_lead_delay_s (wordCount narration)
    unfold start_delay_s spec_lead_delay_s
    congr 1
    ring
  · show min ((wordCount narration : ℚ) * 5 / 100) 2 ≤ 2
    exact min_le_right _ _
  · simp [time_per_action_ms, spec_default_share_ms, hpos, hlen]
    ring
  · intro a share el d h
    simp [pace_delay_ms, h]
  · intro n
    simp [time_per_action_ms, estimated_duration_ms]

/-- Claim C9, witness: a two-word narration over one action. -/
theorem c9_pacing_parameters_witness :
    1 ≤ wordCount "hello world" ∧
    time_per_action_ms (estimated_duration_ms (wordCount "hello world")) 1
      = spec_default_share_ms (estimated_duration_ms (wordCount "hello world")) 1 := by
  have h := c9_pacing_parameters "hello world" [exClickA] false none none
    (Except.ok []) (Except.ok 0) (fun _ => Except.ok ()) (fun _ => 0)
    (by decide) (by decide)
  exact ⟨by decide, h.2.2.2.1⟩

/-! ## C10 — feature-jump index semantics -/

theorem findStepAux_some_iff (f : String) :
    ∀ (script : List Step) (i j : Nat),
      findStepAux f i script = some j ↔
        ∃ k, j = i + k ∧ k < script.length ∧
          containsCI f ((script.getD k dummyStep).name) = true ∧
          ∀ m, m < k → containsCI f ((script.getD m dummyStep).name) = false := by
  intro script
  induction script with
  | nil =>
      intro i j
      simp [findStepAux]
  | cons st rest ih =>
      intro i j
      cases hc : containsCI f st.name with
      | true =>
          simp only [findStepAux, hc, if_true]
          constructor
          · intro h
            injection h with h
            refine ⟨0, by omega, by simp, by simpa using hc, ?_⟩
            intro m hm
            exact absurd hm (Nat.not_lt_zero m)
          · rintro ⟨k, hk1, hk2, hk3, hk4⟩
            cases k with
            | zero => simp [hk1]
            | succ k2 =>
                have h0 := hk4 0 (Nat.succ_pos k2)
                simp at h0
                rw [hc] at h0
                cases h0
      | false =>
          rw [show findStepAux f i (st :: rest) = findStepAux f (i + 1) rest from by
            simp [findStepAux, hc]]
          rw [ih (i + 1) j]
          constructor
          · rintro ⟨k, hk1, hk2, hk3, hk4⟩
            refine ⟨k + 1, by omega, by simp only [List.length_cons]; omega,
              by simpa using hk3, ?_⟩
            intro m hm
            cases m with
            | zero => simpa using hc
            | succ m2 =>
                have hmk := hk4 m2 (by omega)
                simpa using hmk
          · rintro ⟨k, hk1, hk2, hk3, hk4⟩
            cases k with
            | zero =>
                simp at hk3
                rw [hc] at hk3
                cases hk3
            | succ k2 =>
                refine ⟨k2, by omega, by simp only [List.length_cons] at hk2; omega,
                  by simpa using hk3, ?_⟩
                intro m hm
                have hmk := hk4 (m + 1) (by omega)
                simpa using hmk

theorem find_step_for_feature_some_iff (f : String) (script : List Step) (j : Nat) :
    find_step_for_feature f script = some j ↔
      (j < script.length ∧ containsCI f ((script.getD j dummyStep).name) = true ∧
        ∀ m, m < j → containsCI f ((script.getD m dummyStep).name) = false) := by
  unfold find_step_for_feature
  rw [findStepAux_some_iff]
  constructor
  · rintro ⟨k, hk1, hk2, hk3, hk4⟩
    have hkj : k = j := by omega
    subst hkj
    exact ⟨hk2, hk3, hk4⟩
  · rintro ⟨h1, h2, h3⟩
    exact ⟨j, by omega, h1, h2, h3⟩

/-- Claim C10, confirmed.  `_find_step_for_feature` returns the lowest index
whose step name contains the requested feature case-insensitively; because of
the Python truthiness test `if new_step:`, a found index of 0 is treated like
no match — the cursor stays where it is and, after the graph's advance node,
the demo resumes at the next sequential step — while any found index `j > 0`
sets the cursor to `j`. -/
theorem c10_feature_jump_semantics :
    (∀ (r : QHResponse) (s : DemoState),
      r.action = "jump_to_feature" →
      find_step_for_feature r.feature s.demo_script = some 0 →
      (handle_question r s).current_step = s.current_step ∧
      (advance_to_next_step (check_for_questions (handle_question r s))).current_step
        = s.current_step + 1) ∧
    (∀ (r : QHResponse) (s : DemoState) (j : Nat),
      r.action = "jump_to_feature" →
      find_step_for_feature r.feature s.demo_script = some j → j ≠ 0 →
      (handle_question r s).current_step = j) ∧
    (∀ (f : String) (script : List Step) (j : Nat),
      find_step_for_feature f script = some j ↔
        (j < script.length ∧ containsCI f ((script.getD j dummyStep).name) = true ∧
          ∀ m, m < j → containsCI f ((script.getD m dummyStep).name) = false)) := by
  refine ⟨?_, ?_, fun f script j => find_step_for_feature_some_iff f script j⟩
  · intro r s ha hf
    constructor
    · simp [handle_question, ha, hf]
    · simp [advance_to_next_step, check_for_questions, handle_question, ha, hf]
  · intro r s j ha hf hj
    simp [handle_question, ha, hf, hj]

/-- Claim C10, witness: on `exScript`, a jump to "greet" matches index 0 and
leaves the cursor at 0, while a jump to "pricing" matches index 2 and moves
the cursor there. -/
theorem c10_feature_jump_semantics_witness :
    (handle_question exGreetReply exState).current_step = 0 ∧
    (handle_question exJumpReply exState).current_step = 2 :=
  ⟨(c10_feature_jump_semantics.1 exGreetReply exState (by decide) (by decide)).1,
    c10_feature_jump_semantics.2.1 exJumpReply exState 2 (by decide) (by decide)
      (by decide)⟩

end DemoPilot
